import Mathlib

/-!
Shallow embedding of the rust-budget-planner-core repository.

The model translates `src/budget_item.rs`, `src/budget_group.rs`,
`src/income.rs`, `src/expense.rs` and `src/types.rs`.  Rust `f64`/`f32`
amounts are modelled as exact rationals (`ℚ`); an item name is its
character list, so Rust's byte-wise `String` comparison is the
lexicographic order on `List Char` (UTF-8 byte order coincides with
codepoint order).  Panics (`assert!`, `Vec::remove`
out of bounds) are modelled explicitly: construction returns `Option`,
group removal returns a three-valued `RemoveResult` with a `panic` case.
-/

namespace RBP

/-- `Period` from `src/budget_item.rs` (structurally identical to the one in
`src/types.rs`): the recurring period of a budget item.  The derived Rust
`Ord` compares discriminants in declaration order. -/
inductive Period
  | every1Month
  | every2Months
  | every3Months
  | every6Months
  | every12Months
deriving DecidableEq, BEq, Repr

/-- Discriminant of `Period`, in Rust declaration order (what the derived
`Ord` on a fieldless enum compares). -/
def Period.toNat : Period → Nat
  | .every1Month => 0
  | .every2Months => 1
  | .every3Months => 2
  | .every6Months => 3
  | .every12Months => 4

/-- The private enum `Type` from `src/budget_item.rs` (renamed: `Type` is a
Lean keyword). -/
inductive ItemType
  | income
  | expense
deriving DecidableEq, BEq, Repr

/-- Discriminant of `Type`, in Rust declaration order. -/
def ItemType.toNat : ItemType → Nat
  | .income => 0
  | .expense => 1

/-- `BudgetItem` from `src/budget_item.rs`.  The `name` is the string's
character (= UTF-8 byte) sequence, so that Rust's byte-wise `String`
ordering is the lexicographic order on the list. -/
structure BudgetItem where
  name : List Char
  period : Period
  item_type : ItemType
  amount : ℚ
deriving DecidableEq, Repr

/-- `BudgetItem::check_amount`: `assert!(*amount > 0.0)`.  The panic is
modelled as `none`. -/
def BudgetItem.check_amount (amount : ℚ) : Option Unit :=
  if amount > 0 then some () else none

/-- `BudgetItem::with_income`. -/
def BudgetItem.with_income (name : List Char) (amount : ℚ) (period : Period) :
    Option BudgetItem := do
  let _ ← BudgetItem.check_amount amount
  pure { name := name, period := period, item_type := ItemType.income, amount := amount }

/-- `BudgetItem::with_expense`. -/
def BudgetItem.with_expense (name : List Char) (amount : ℚ) (period : Period) :
    Option BudgetItem := do
  let _ ← BudgetItem.check_amount amount
  pure { name := name, period := period, item_type := ItemType.expense, amount := amount }

/-- `BudgetItem::monthly_contribution`. -/
def BudgetItem.monthly_contribution (self : BudgetItem) : ℚ :=
  let num : ℚ :=
    match self.period with
    | .every1Month => self.amount
    | .every2Months => self.amount / 2
    | .every3Months => self.amount / 3
    | .every6Months => self.amount / 6
    | .every12Months => self.amount / 12
  match self.item_type with
  | .income => num
  | .expense => -num

/-- Three-way comparison induced by a linear order (`if a < b { Less } else
if b < a { Greater } else { Equal }`); the shape of Rust's `Ord::cmp` for
primitive and lexicographically ordered types. -/
def ltCmp {α : Type} [LinearOrder α] (a b : α) : Ordering :=
  if a < b then .lt else if b < a then .gt else .eq

/-- `self.name.cmp(&other.name)`: Rust `String` order is lexicographic on
bytes, which for UTF-8 equals the lexicographic order on the character
list. -/
def strCmp (a b : List Char) : Ordering := ltCmp a b

/-- The derived `Ord` on `Period`: compare discriminants. -/
def periodCmp (a b : Period) : Ordering := ltCmp a.toNat b.toNat

/-- The derived `Ord` on `Type`: compare discriminants (`Income < Expense`). -/
def typeCmp (a b : ItemType) : Ordering := ltCmp a.toNat b.toNat

/-- `impl Ord for BudgetItem` (`src/budget_item.rs` lines 148-162). -/
def itemCmp (self other : BudgetItem) : Ordering :=
  let name_cmp := strCmp self.name other.name
  if name_cmp ≠ .eq then name_cmp
  else
    let period_cmp := periodCmp self.period other.period
    if period_cmp ≠ .eq then period_cmp
    else typeCmp self.item_type other.item_type

/-- `impl PartialEq for BudgetItem` (`src/budget_item.rs` lines 164-168). -/
def itemEq (self other : BudgetItem) : Bool :=
  self.name == other.name && self.period == other.period && self.item_type == other.item_type

/-- `a ≤ b` for the sort: `cmp` does not return `Greater`. -/
def itemLE (a b : BudgetItem) : Prop := itemCmp a b ≠ .gt

instance : DecidableRel itemLE := fun a b => by
  unfold itemLE; infer_instance

/-- `Vec::sort_unstable` by the `Ord` on `BudgetItem`: modelled as a sort
producing a sorted permutation (insertion sort). -/
def sortItems (l : List BudgetItem) : List BudgetItem := l.insertionSort itemLE

/-- `BudgetGroup` from `src/budget_group.rs`. -/
structure BudgetGroup where
  name : String
  items : List BudgetItem
deriving DecidableEq, Repr

/-- `BudgetGroup::new`. -/
def BudgetGroup.new (name : String) : BudgetGroup :=
  { name := name, items := [] }

/-- `BudgetGroup::enumerate`: index-paired view of the items. -/
def BudgetGroup.enumerate (self : BudgetGroup) : List (Nat × BudgetItem) :=
  self.items.enum

/-- `BudgetGroup::add`: push then `sort_unstable`. -/
def BudgetGroup.add (self : BudgetGroup) (item : BudgetItem) : BudgetGroup :=
  { self with items := sortItems (self.items ++ [item]) }

/-- Outcome of `BudgetGroup::remove`: `Ok(())` / `Err(())` (both leave a
group behind), or a Rust panic (no group survives). -/
inductive RemoveResult
  | ok (g : BudgetGroup)
  | err (g : BudgetGroup)
  | panic
deriving DecidableEq, Repr

/-- `BudgetGroup::remove` (`src/budget_group.rs` lines 69-76).  The guard is
`idx > self.items.len()` (strictly greater).  When the guard passes and
`idx` still is not below the length — exactly `idx == len` — the call
`self.items.remove(idx)` is `Vec::remove` out of bounds, which panics. -/
def BudgetGroup.remove (self : BudgetGroup) (idx : Nat) : RemoveResult :=
  if idx > self.items.length then .err self
  else if idx < self.items.length then
    .ok { self with items := sortItems (self.items.eraseIdx idx) }
  else .panic

/-- `Income` from `src/income.rs` (earlier trait-based design; `f32`
amount modelled as ℚ, `types::Period` modelled by the same `Period`). -/
structure Income where
  name : List Char
  amount : ℚ
  period : Period
deriving DecidableEq, Repr

/-- `impl BudgetItem for Income`: `monthly_contribution` (`src/income.rs`). -/
def Income.monthly_contribution (self : Income) : ℚ :=
  match self.period with
  | .every1Month => self.amount
  | .every2Months => self.amount / 2
  | .every3Months => self.amount / 3
  | .every6Months => self.amount / 6
  | .every12Months => self.amount / 12

/-- `Expense` from `src/expense.rs`. -/
structure Expense where
  name : List Char
  amount : ℚ
  period : Period
deriving DecidableEq, Repr

/-- `impl BudgetItem for Expense`: `monthly_contribution`
(`src/expense.rs`; `-self.amount / 2.0` parses as `(-amount) / 2`). -/
def Expense.monthly_contribution (self : Expense) : ℚ :=
  match self.period with
  | .every1Month => -self.amount
  | .every2Months => -self.amount / 2
  | .every3Months => -self.amount / 3
  | .every6Months => -self.amount / 6
  | .every12Months => -self.amount / 12

/-- Number of months in a period, as the spec reads it off the period name
(`period_in_months`). -/
def Period.months : Period → Nat
  | .every1Month => 1
  | .every2Months => 2
  | .every3Months => 3
  | .every6Months => 6
  | .every12Months => 12

/-- The shape of `impl Ord for BudgetItem`: first non-`Equal` of the three
component comparisons. -/
def lex3 (o₁ o₂ o₃ : Ordering) : Ordering :=
  if o₁ ≠ .eq then o₁ else if o₂ ≠ .eq then o₂ else o₃

/-- The comparison key of an item: name, then period discriminant, then
kind discriminant. -/
def keyOf (a : BudgetItem) : List Char × Nat × Nat :=
  (a.name, a.period.toNat, a.item_type.toNat)

/-- Strict lexicographic order on comparison keys. -/
def tripLt (x y : List Char × Nat × Nat) : Prop :=
  x.1 < y.1 ∨ (x.1 = y.1 ∧ (x.2.1 < y.2.1 ∨ (x.2.1 = y.2.1 ∧ x.2.2 < y.2.2)))

/-- Groups reachable from `BudgetGroup::new` by `add` and successful
`remove` calls. -/
inductive Reachable : BudgetGroup → Prop
  | new (s : String) : Reachable (BudgetGroup.new s)
  | add {g : BudgetGroup} (i : BudgetItem) : Reachable g → Reachable (g.add i)
  | remove_ok {g g' : BudgetGroup} (n : Nat) :
      Reachable g → g.remove n = .ok g' → Reachable g'

/-- Rank of the item kind as the spec words it: "Income before Expense". -/
def specKindRank : ItemType → Nat
  | .income => 0
  | .expense => 1

/-- The item ordering as the spec words it (§3): lexicographic on the key
(name, period, kind), name ascending, period ascending by interval length
(months), kind by `specKindRank`. -/
def specLexCmp (a b : BudgetItem) : Ordering :=
  (ltCmp a.name b.name).then
    ((ltCmp a.period.months b.period.months).then
      (ltCmp (specKindRank a.item_type) (specKindRank b.item_type)))

/-! ### Comparator lemmas -/

lemma ltCmp_eq_lt {α : Type} [LinearOrder α] {a b : α} : ltCmp a b = .lt ↔ a < b := by
  unfold ltCmp
  split_ifs with h1 h2 <;> simp [h1]

lemma ltCmp_eq_gt {α : Type} [LinearOrder α] {a b : α} : ltCmp a b = .gt ↔ b < a := by
  unfold ltCmp
  split_ifs with h1 h2
  · simpa using asymm h1
  · simp [h2]
  · simp [h2]

lemma ltCmp_eq_eq {α : Type} [LinearOrder α] {a b : α} : ltCmp a b = .eq ↔ a = b := by
  unfold ltCmp
  split_ifs with h1 h2
  · simp [h1.ne]
  · simp [h2.ne.symm]
  · simp [le_antisymm (not_lt.mp h2) (not_lt.mp h1)]

lemma periodToNat_inj {a b : Period} : a.toNat = b.toNat ↔ a = b := by
  cases a <;> cases b <;> decide

lemma typeToNat_inj {a b : ItemType} : a.toNat = b.toNat ↔ a = b := by
  cases a <;> cases b <;> decide

lemma lex3_eq_lt (o₁ o₂ o₃ : Ordering) :
    lex3 o₁ o₂ o₃ = .lt ↔
      o₁ = .lt ∨ (o₁ = .eq ∧ (o₂ = .lt ∨ (o₂ = .eq ∧ o₃ = .lt))) := by
  cases o₁ <;> cases o₂ <;> cases o₃ <;> decide

lemma lex3_eq_gt (o₁ o₂ o₃ : Ordering) :
    lex3 o₁ o₂ o₃ = .gt ↔
      o₁ = .gt ∨ (o₁ = .eq ∧ (o₂ = .gt ∨ (o₂ = .eq ∧ o₃ = .gt))) := by
  cases o₁ <;> cases o₂ <;> cases o₃ <;> decide

lemma lex3_eq_eq (o₁ o₂ o₃ : Ordering) :
    lex3 o₁ o₂ o₃ = .eq ↔ (o₁ = .eq ∧ o₂ = .eq ∧ o₃ = .eq) := by
  cases o₁ <;> cases o₂ <;> cases o₃ <;> decide

lemma itemCmp_lex3 (a b : BudgetItem) :
    itemCmp a b =
      lex3 (strCmp a.name b.name) (periodCmp a.period b.period)
        (typeCmp a.item_type b.item_type) := rfl

lemma itemCmp_lt_iff (a b : BudgetItem) :
    itemCmp a b = .lt ↔ tripLt (keyOf a) (keyOf b) := by
  rw [itemCmp_lex3, lex3_eq_lt]
  simp only [strCmp, periodCmp, typeCmp, ltCmp_eq_lt, ltCmp_eq_eq, tripLt, keyOf]

lemma itemCmp_gt_iff (a b : BudgetItem) :
    itemCmp a b = .gt ↔ tripLt (keyOf b) (keyOf a) := by
  rw [itemCmp_lex3, lex3_eq_gt]
  simp only [strCmp, periodCmp, typeCmp, ltCmp_eq_gt, ltCmp_eq_eq, tripLt, keyOf]
  constructor
  · rintro (h | ⟨e, h | ⟨e2, h3⟩⟩)
    · exact Or.inl h
    · exact Or.inr ⟨e.symm, Or.inl h⟩
    · exact Or.inr ⟨e.symm, Or.inr ⟨e2.symm, h3⟩⟩
  · rintro (h | ⟨e, h | ⟨e2, h3⟩⟩)
    · exact Or.inl h
    · exact Or.inr ⟨e.symm, Or.inl h⟩
    · exact Or.inr ⟨e.symm, Or.inr ⟨e2.symm, h3⟩⟩

lemma itemCmp_eq_iff (a b : BudgetItem) :
    itemCmp a b = .eq ↔ keyOf a = keyOf b := by
  rw [itemCmp_lex3, lex3_eq_eq]
  simp only [strCmp, periodCmp, typeCmp, ltCmp_eq_eq, keyOf, Prod.mk.injEq]

lemma itemCmp_eq_iff_fields (a b : BudgetItem) :
    itemCmp a b = .eq ↔
      (a.name = b.name ∧ a.period = b.period ∧ a.item_type = b.item_type) := by
  rw [itemCmp_eq_iff]
  simp only [keyOf, Prod.mk.injEq, periodToNat_inj, typeToNat_inj]

lemma tripLt_trans {x y z : List Char × Nat × Nat} :
    tripLt x y → tripLt y z → tripLt x z := by
  rintro (h1 | ⟨e1, h1⟩) (h2 | ⟨e2, h2⟩)
  · exact Or.inl (lt_trans h1 h2)
  · exact Or.inl (lt_of_lt_of_eq h1 e2)
  · exact Or.inl (lt_of_eq_of_lt e1 h2)
  · refine Or.inr ⟨e1.trans e2, ?_⟩
    rcases h1 with h1 | ⟨f1, h1⟩ <;> rcases h2 with h2 | ⟨f2, h2⟩
    · exact Or.inl (lt_trans h1 h2)
    · exact Or.inl (lt_of_lt_of_eq h1 f2)
    · exact Or.inl (lt_of_eq_of_lt f1 h2)
    · exact Or.inr ⟨f1.trans f2, lt_trans h1 h2⟩

lemma tripLt_trichotomy (x y : List Char × Nat × Nat) :
    tripLt x y ∨ x = y ∨ tripLt y x := by
  obtain ⟨x1, x2, x3⟩ := x
  obtain ⟨y1, y2, y3⟩ := y
  simp only [tripLt]
  rcases lt_trichotomy x1 y1 with h | h | h
  · exact Or.inl (Or.inl h)
  · subst h
    rcases lt_trichotomy x2 y2 with h2 | h2 | h2
    · exact Or.inl (Or.inr ⟨rfl, Or.inl h2⟩)
    · subst h2
      rcases lt_trichotomy x3 y3 with h3 | h3 | h3
      · exact Or.inl (Or.inr ⟨rfl, Or.inr ⟨rfl, h3⟩⟩)
      · subst h3; exact Or.inr (Or.inl rfl)
      · exact Or.inr (Or.inr (Or.inr ⟨rfl, Or.inr ⟨rfl, h3⟩⟩))
    · exact Or.inr (Or.inr (Or.inr ⟨rfl, Or.inl h2⟩))
  · exact Or.inr (Or.inr (Or.inl h))

lemma itemLE_iff (a b : BudgetItem) :
    itemLE a b ↔ (itemCmp a b = .lt ∨ itemCmp a b = .eq) := by
  unfold itemLE
  cases h : itemCmp a b <;> simp

instance : IsTrans BudgetItem itemLE := by
  constructor
  intro a b c hab hbc
  rw [itemLE_iff] at *
  rcases hab with hab | hab <;> rcases hbc with hbc | hbc
  · exact Or.inl ((itemCmp_lt_iff a c).mpr
      (tripLt_trans ((itemCmp_lt_iff a b).mp hab) ((itemCmp_lt_iff b c).mp hbc)))
  · have e := (itemCmp_eq_iff b c).mp hbc
    exact Or.inl ((itemCmp_lt_iff a c).mpr (e ▸ (itemCmp_lt_iff a b).mp hab))
  · have e := (itemCmp_eq_iff a b).mp hab
    exact Or.inl ((itemCmp_lt_iff a c).mpr (e.symm ▸ (itemCmp_lt_iff b c).mp hbc))
  · exact Or.inr ((itemCmp_eq_iff a c).mpr
      (((itemCmp_eq_iff a b).mp hab).trans ((itemCmp_eq_iff b c).mp hbc)))

instance : IsTotal BudgetItem itemLE := by
  constructor
  intro a b
  rcases tripLt_trichotomy (keyOf a) (keyOf b) with h | h | h
  · exact Or.inl ((itemLE_iff a b).mpr (Or.inl ((itemCmp_lt_iff a b).mpr h)))
  · exact Or.inl ((itemLE_iff a b).mpr (Or.inr ((itemCmp_eq_iff a b).mpr h)))
  · exact Or.inr ((itemLE_iff b a).mpr (Or.inl ((itemCmp_lt_iff b a).mpr h)))

lemma sorted_sortItems (l : List BudgetItem) : List.Sorted itemLE (sortItems l) :=
  List.sorted_insertionSort itemLE l

/-! ### Group state lemmas -/

lemma enumerate_map_snd (g : BudgetGroup) : g.enumerate.map Prod.snd = g.items := by
  unfold BudgetGroup.enumerate
  exact List.enum_map_snd g.items

lemma remove_ok_inv {g : BudgetGroup} {n : Nat} {g' : BudgetGroup}
    (h : g.remove n = .ok g') :
    n < g.items.length ∧ g' = { g with items := sortItems (g.items.eraseIdx n) } := by
  unfold BudgetGroup.remove at h
  split_ifs at h with h1 h2
  all_goals cases h
  exact ⟨h2, rfl⟩

lemma remove_err_inv {g : BudgetGroup} {n : Nat} {g' : BudgetGroup}
    (h : g.remove n = .err g') : g.items.length < n ∧ g' = g := by
  unfold BudgetGroup.remove at h
  split_ifs at h with h1 h2
  all_goals cases h
  exact ⟨h1, rfl⟩

lemma tripLt_irrefl (x : List Char × Nat × Nat) : ¬ tripLt x x := by
  simp [tripLt]

lemma periodBeq_iff (a b : Period) : (a == b) = true ↔ a = b := by
  cases a <;> cases b <;> decide

lemma typeBeq_iff (a b : ItemType) : (a == b) = true ↔ a = b := by
  cases a <;> cases b <;> decide

lemma itemEq_iff (a b : BudgetItem) :
    itemEq a b = true ↔
      (a.name = b.name ∧ a.period = b.period ∧ a.item_type = b.item_type) := by
  unfold itemEq
  simp [Bool.and_eq_true, periodBeq_iff, typeBeq_iff, and_assoc]

lemma lex3_then (o₁ o₂ o₃ : Ordering) : lex3 o₁ o₂ o₃ = o₁.then (o₂.then o₃) := by
  cases o₁ <;> cases o₂ <;> cases o₃ <;> decide

/-! ### Claims -/

/-- C1: the spec says `remove(idx)` must fail with the out-of-range error,
collection unmodified, for every invalid `idx` — in particular
`idx == len`.  The code's guard is `idx > len`, so on a one-item group
`remove(1)` slips past the guard and `Vec::remove` panics instead of
returning the error.  This theorem evaluates the model at the failing
input: `remove(1)` panics, while `remove(0)` succeeds as specified. -/
theorem C1_remove_boundary_panics :
    (((BudgetGroup.new "foo").add ⟨"bar".toList, .every1Month, .income, 10⟩).remove 1
        = RemoveResult.panic) ∧
    (((BudgetGroup.new "foo").add ⟨"bar".toList, .every1Month, .income, 10⟩).remove 0
        = RemoveResult.ok ⟨"foo", []⟩) := by
  constructor
  · rfl
  · rfl

/-- C3: `monthly_contribution` is the amount divided by the number of
months of the period, negated for expenses; including the spec's four
literal cases. -/
theorem C3_monthly_contribution (n : List Char) (a : ℚ) (p : Period) (h : 0 < a) :
    ((BudgetItem.with_income n a p).map BudgetItem.monthly_contribution
        = some (a / (p.months : ℚ)) ∧
      (BudgetItem.with_expense n a p).map BudgetItem.monthly_contribution
        = some (-(a / (p.months : ℚ)))) ∧
    (BudgetItem.with_income "i1".toList 42 .every1Month).map
        BudgetItem.monthly_contribution = some 42 ∧
    (BudgetItem.with_income "i2".toList 10 .every2Months).map
        BudgetItem.monthly_contribution = some 5 ∧
    (BudgetItem.with_expense "e1".toList 15 .every3Months).map
        BudgetItem.monthly_contribution = some (-5) ∧
    (BudgetItem.with_expense "e2".toList 12 .every12Months).map
        BudgetItem.monthly_contribution = some (-1) := by
  refine ⟨?_, by norm_num [BudgetItem.with_income, BudgetItem.check_amount,
      BudgetItem.monthly_contribution],
    by norm_num [BudgetItem.with_income, BudgetItem.check_amount,
      BudgetItem.monthly_contribution],
    by norm_num [BudgetItem.with_expense, BudgetItem.check_amount,
      BudgetItem.monthly_contribution],
    by norm_num [BudgetItem.with_expense, BudgetItem.check_amount,
      BudgetItem.monthly_contribution]⟩
  cases p <;>
    simp [BudgetItem.with_income, BudgetItem.with_expense, BudgetItem.check_amount, h,
      BudgetItem.monthly_contribution, Period.months]

/-- Witness for C3 at a concrete input. -/
theorem C3_witness :
    (0 : ℚ) < 7 ∧
      (BudgetItem.with_income "w".toList 7 .every2Months).map
          BudgetItem.monthly_contribution
        = some (7 / (Period.months .every2Months : ℚ)) :=
  ⟨by norm_num, (C3_monthly_contribution "w".toList 7 .every2Months (by norm_num)).1.1⟩

/-- C4: two items are equal iff name, period and kind all coincide (the
amount is ignored); in particular `with_income("x", 10, Every1Month)`
equals `with_income("x", 20, Every1Month)`. -/
theorem C4_equality_ignores_amount :
    (∀ a b : BudgetItem,
      itemEq a b = true ↔
        (a.name = b.name ∧ a.period = b.period ∧ a.item_type = b.item_type)) ∧
    Option.map₂ itemEq (BudgetItem.with_income "x".toList 10 .every1Month)
        (BudgetItem.with_income "x".toList 20 .every1Month) = some true := by
  exact ⟨fun a b => itemEq_iff a b, by decide⟩

/-- Witness for C4: the characterisation applied at a concrete pair. -/
theorem C4_witness :
    (⟨"x".toList, .every1Month, .income, 10⟩ : BudgetItem).name
        = (⟨"x".toList, .every1Month, .income, 20⟩ : BudgetItem).name :=
  ((C4_equality_ignores_amount.1 ⟨"x".toList, .every1Month, .income, 10⟩
      ⟨"x".toList, .every1Month, .income, 20⟩).mp (by decide)).1

/-- C7: both factory paths reject `amount <= 0` (the `check_amount` assert
fails) and succeed for `amount > 0` with exactly the given fields;
including the spec's two literal rejection cases. -/
theorem C7_construction_checks (n : List Char) (a : ℚ) (p : Period) :
    (a ≤ 0 → BudgetItem.with_income n a p = none ∧
             BudgetItem.with_expense n a p = none) ∧
    (0 < a → BudgetItem.with_income n a p = some ⟨n, p, .income, a⟩ ∧
             BudgetItem.with_expense n a p = some ⟨n, p, .expense, a⟩) ∧
    BudgetItem.with_income "x".toList (-100) .every1Month = none ∧
    BudgetItem.with_expense "x".toList 0 .every1Month = none := by
  refine ⟨?_, ?_, by decide, by decide⟩
  · intro h
    constructor <;>
      simp [BudgetItem.with_income, BudgetItem.with_expense, BudgetItem.check_amount,
        not_lt.mpr h]
  · intro h
    constructor <;>
      simp [BudgetItem.with_income, BudgetItem.with_expense, BudgetItem.check_amount, h]

/-- Witness for C7: rejection at `-1`, success at `2`. -/
theorem C7_witness :
    BudgetItem.with_income "x".toList (-1) .every1Month = none ∧
    BudgetItem.with_income "x".toList 2 .every1Month
      = some ⟨"x".toList, .every1Month, .income, 2⟩ :=
  ⟨((C7_construction_checks "x".toList (-1) .every1Month).1 (by norm_num)).1,
   ((C7_construction_checks "x".toList 2 .every1Month).2.1 (by norm_num)).1⟩

/-- C2: every group reachable from `new` by `add` and successful `remove`
calls enumerates its items in non-decreasing `(name, period, kind)` order. -/
theorem C2_enumerate_sorted (g : BudgetGroup) (h : Reachable g) :
    List.Sorted itemLE (g.enumerate.map Prod.snd) := by
  rw [enumerate_map_snd]
  induction h with
  | new s => exact List.sorted_nil
  | add i hg ih => exact sorted_sortItems _
  | remove_ok n hg he ih =>
      obtain ⟨-, rfl⟩ := remove_ok_inv he
      exact sorted_sortItems _

/-- Witness for C2: a freshly created group. -/
theorem C2_witness :
    List.Sorted itemLE ((BudgetGroup.new "w").enumerate.map Prod.snd) :=
  C2_enumerate_sorted _ (Reachable.new "w")

/-- C5: `compare` is the lexicographic comparison of the key
(name ascending, then period ascending by interval length, then kind with
Income before Expense), and after adding "qq" then "ab" the first
enumerated element is the item named "ab". -/
theorem C5_lexicographic_compare :
    (∀ a b : BudgetItem, itemCmp a b = specLexCmp a b) ∧
    (((BudgetGroup.new "foo").add ⟨"qq".toList, .every1Month, .income, 10⟩
        |>.add ⟨"ab".toList, .every1Month, .income, 10⟩).enumerate.head?
      = some (0, ⟨"ab".toList, .every1Month, .income, 10⟩)) := by
  constructor
  · intro a b
    obtain ⟨an, ap, ak, aa⟩ := a
    obtain ⟨bn, bp, bk, ba⟩ := b
    have hp : ltCmp ap.months bp.months = periodCmp ap bp := by
      cases ap <;> cases bp <;> decide
    have hk : ltCmp (specKindRank ak) (specKindRank bk) = typeCmp ak bk := by
      cases ak <;> cases bk <;> decide
    rw [itemCmp_lex3, lex3_then]
    show (strCmp an bn).then ((periodCmp ap bp).then (typeCmp ak bk))
        = (ltCmp an bn).then ((ltCmp ap.months bp.months).then
            (ltCmp (specKindRank ak) (specKindRank bk)))
    rw [hp, hk]
    rfl
  · decide

/-- C6: the comparison is a total order consistent with equality:
`≤` is transitive, exactly one of `a < b`, `a == b`, `b < a` holds, and
`==` holds exactly when `compare` returns `Equal`. -/
theorem C6_total_order_consistent :
    (∀ a b c : BudgetItem, itemLE a b → itemLE b c → itemLE a c) ∧
    (∀ a b : BudgetItem,
      (itemCmp a b = .lt ∧ ¬ itemEq a b = true ∧ ¬ itemCmp b a = .lt) ∨
      (¬ itemCmp a b = .lt ∧ itemEq a b = true ∧ ¬ itemCmp b a = .lt) ∨
      (¬ itemCmp a b = .lt ∧ ¬ itemEq a b = true ∧ itemCmp b a = .lt)) ∧
    (∀ a b : BudgetItem, itemEq a b = true ↔ itemCmp a b = .eq) := by
  refine ⟨fun a b c hab hbc => IsTrans.trans a b c hab hbc, ?_,
    fun a b => (itemEq_iff a b).trans (itemCmp_eq_iff_fields a b).symm⟩
  intro a b
  rcases tripLt_trichotomy (keyOf a) (keyOf b) with h | h | h
  · have hlt := (itemCmp_lt_iff a b).mpr h
    refine Or.inl ⟨hlt, ?_, ?_⟩
    · intro he
      have heq := (itemCmp_eq_iff_fields a b).mpr ((itemEq_iff a b).mp he)
      rw [hlt] at heq
      cases heq
    · intro hba
      exact tripLt_irrefl _ (tripLt_trans h ((itemCmp_lt_iff b a).mp hba))
  · have heq := (itemCmp_eq_iff a b).mpr h
    refine Or.inr (Or.inl ⟨?_, ?_, ?_⟩)
    · intro hlt
      rw [hlt] at heq
      cases heq
    · exact (itemEq_iff a b).mpr ((itemCmp_eq_iff_fields a b).mp heq)
    · intro hba
      have heq2 := (itemCmp_eq_iff b a).mpr h.symm
      rw [hba] at heq2
      cases heq2
  · have hlt := (itemCmp_lt_iff b a).mpr h
    refine Or.inr (Or.inr ⟨?_, ?_, hlt⟩)
    · intro hab
      exact tripLt_irrefl _ (tripLt_trans ((itemCmp_lt_iff a b).mp hab) h)
    · intro he
      have hk := (itemCmp_eq_iff a b).mp
        ((itemCmp_eq_iff_fields a b).mpr ((itemEq_iff a b).mp he))
      exact tripLt_irrefl _ (hk ▸ h)

/-- Witness for C6: transitivity applied at three concrete items. -/
theorem C6_witness :
    itemLE ⟨"a".toList, .every1Month, .income, 1⟩
      ⟨"c".toList, .every1Month, .income, 1⟩ :=
  C6_total_order_consistent.1 ⟨"a".toList, .every1Month, .income, 1⟩
    ⟨"b".toList, .every1Month, .income, 1⟩ ⟨"c".toList, .every1Month, .income, 1⟩
    (by decide) (by decide)

/-- C8: lifecycle of a group: `new "foo"` is named "foo" and empty, adding
one item gives length 1, `remove(0)` then succeeds leaving length 0;
`add` always grows the count by one and a successful `remove` shrinks it
by one. -/
theorem C8_group_lifecycle :
    ((BudgetGroup.new "foo").name = "foo") ∧
    ((BudgetGroup.new "foo").enumerate.length = 0) ∧
    (((BudgetGroup.new "foo").add
        ⟨"bar".toList, .every1Month, .income, 10⟩).enumerate.length = 1) ∧
    (((BudgetGroup.new "foo").add ⟨"bar".toList, .every1Month, .income, 10⟩).remove 0
        = RemoveResult.ok ⟨"foo", []⟩) ∧
    ((⟨"foo", []⟩ : BudgetGroup).enumerate.length = 0) ∧
    (∀ (g : BudgetGroup) (i : BudgetItem),
        (g.add i).items.length = g.items.length + 1) ∧
    (∀ (g g' : BudgetGroup) (n : Nat),
        g.remove n = .ok g' → g'.items.length + 1 = g.items.length) := by
  refine ⟨rfl, rfl, rfl, rfl, rfl, ?_, ?_⟩
  · intro g i
    simp [BudgetGroup.add, sortItems, List.length_insertionSort]
  · intro g g' n h
    obtain ⟨hlt, rfl⟩ := remove_ok_inv h
    simp only [sortItems, List.length_insertionSort]
    exact List.length_eraseIdx_add_one hlt

/-- Witness for C8: the successful removal applied at the one-item group. -/
theorem C8_witness :
    (((BudgetGroup.new "foo").add ⟨"bar".toList, .every1Month, .income, 10⟩).remove 0
        = RemoveResult.ok ⟨"foo", []⟩) ∧
    (⟨"foo", []⟩ : BudgetGroup).items.length + 1
        = ((BudgetGroup.new "foo").add
            ⟨"bar".toList, .every1Month, .income, 10⟩).items.length :=
  ⟨by rfl, C8_group_lifecycle.2.2.2.2.2.2 _ _ 0 (by rfl)⟩

/-- C9: the tagged-kind `monthly_contribution` agrees with the earlier
trait-based `Income`/`Expense` implementations on every name, amount and
period. -/
theorem C9_refinement_income_expense (n : List Char) (a : ℚ) (p : Period)
    (h : 0 < a) :
    (BudgetItem.with_income n a p).map BudgetItem.monthly_contribution
        = some (Income.monthly_contribution ⟨n, a, p⟩) ∧
    (BudgetItem.with_expense n a p).map BudgetItem.monthly_contribution
        = some (Expense.monthly_contribution ⟨n, a, p⟩) := by
  cases p <;>
    simp [BudgetItem.with_income, BudgetItem.with_expense, BudgetItem.check_amount, h,
      BudgetItem.monthly_contribution, Income.monthly_contribution,
      Expense.monthly_contribution, neg_div]

/-- Witness for C9 at a concrete expense. -/
theorem C9_witness :
    (0 : ℚ) < 3 ∧
      (BudgetItem.with_expense "w".toList 3 .every3Months).map
          BudgetItem.monthly_contribution
        = some (Expense.monthly_contribution ⟨"w".toList, 3, .every3Months⟩) :=
  ⟨by norm_num,
    (C9_refinement_income_expense "w".toList 3 .every3Months (by norm_num)).2⟩

/-- C10: the group's name is unchanged by `add` and by `remove`, whether
the removal succeeds or reports the invalid-index error. -/
theorem C10_name_unchanged :
    (∀ (g : BudgetGroup) (i : BudgetItem), (g.add i).name = g.name) ∧
    (∀ (g g' : BudgetGroup) (n : Nat),
        g.remove n = .ok g' ∨ g.remove n = .err g' → g'.name = g.name) := by
  constructor
  · intro g i
    rfl
  · rintro g g' n (h | h)
    · obtain ⟨-, rfl⟩ := remove_ok_inv h
      rfl
    · obtain ⟨-, rfl⟩ := remove_err_inv h
      rfl

/-- Witness for C10: the error branch at an out-of-range index. -/
theorem C10_witness : (BudgetGroup.new "z").name = (BudgetGroup.new "z").name :=
  C10_name_unchanged.2 (BudgetGroup.new "z") (BudgetGroup.new "z") 5 (Or.inr (by rfl))

end RBP
